import Mathlib

/-!
Verification of the machine-mode trap and context-switch engine of the
rustsbi-d1 firmware (file src/see/src/execute.rs), shallowly embedded in
Lean 4.  Machine integers (Rust usize on this RV64 target) are modelled as
natural numbers taken modulo 2 ^ 64 wherever overflow can occur.
-/

set_option maxRecDepth 8192

namespace RustsbiD1

/-- The modulus of a 64-bit machine word (Rust usize on RV64). -/
def wordMod : Nat := 2 ^ 64

/-- The all-ones 64-bit word, the value u64::MAX / usize::MAX. -/
def ones64 : Nat := wordMod - 1

/-- Bitwise complement of a value inside a 64-bit word, modelling the Rust
unary bang operator on usize. -/
def compl64 (n : Nat) : Nat := ones64 ^^^ n

/-- Set bit i of a word, modelling a csrrs-style read-modify-write. -/
def setBit (w i : Nat) : Nat := w ||| (1 <<< i)

/-- Clear bit i of a word, modelling a csrrc-style read-modify-write. -/
def clearBit (w i : Nat) : Nat := w &&& compl64 (1 <<< i)

/-- Read bit i of a word. -/
def getBit (w i : Nat) : Bool := w.testBit i

/-- The result pair returned by the external SBI call table, Rust struct
SbiRet with fields error and value. -/
structure SbiRet where
  error : Nat
  value : Nat

/-- The external SBI call table rustsbi::ecall, consumed as an opaque
dispatch function from (extension, function, arguments) to SbiRet. -/
def SbiTable : Type := Nat → Nat → List Nat → SbiRet

/-- Rust struct Context from execute.rs: machine stack pointer, the 31
general registers x1..x31 stored at array indices 0..30, the saved status
word, and the saved exception program counter. The register array is
modelled as a function from array index to value. -/
structure Context where
  msp : Nat
  x : Nat → Nat
  mstatus : Nat
  mepc : Nat

/-- Rust method Context::x(n): read general register n, stored at array
index n - 1. -/
def Context.xget (c : Context) (n : Nat) : Nat := c.x (n - 1)

/-- Rust method Context::x_mut(n) followed by assignment: write general
register n at array index n - 1. -/
def Context.xset (c : Context) (n v : Nat) : Context :=
  { c with x := fun m => if m = n - 1 then v else c.x m }

/-- Rust method Context::a(n): argument register a_n is general register
x(n + 10). -/
def Context.a (c : Context) (n : Nat) : Nat := c.xget (n + 10)

/-- Rust method Context::a_mut(n) followed by assignment. -/
def Context.aset (c : Context) (n v : Nat) : Context := c.xset (n + 10) v

/-! Constants of the rustsbi::spec crate (the SBI specification), used by
handle_ecall: extension ids, function ids and the suspend / reset type
encodings.  The suspend and reset types are u32 values in the SBI spec. -/

def RET_SUCCESS : Nat := 0
def EID_HSM : Nat := 0x48534D
def HART_STOP : Nat := 1
def HART_SUSPEND : Nat := 3
def HART_SUSPEND_TYPE_NON_RETENTIVE : Nat := 0x80000000
def EID_SRST : Nat := 0x53525354
def SYSTEM_RESET : Nat := 0
def RESET_TYPE_COLD_REBOOT : Nat := 1
def RESET_TYPE_WARM_REBOOT : Nat := 2

/-- Rust u32::try_from on a usize value: succeeds exactly when the value
fits in 32 bits. -/
def u32_try_from (n : Nat) : Option Nat := if n < 2 ^ 32 then some n else none

/-- The SBI answer computed by handle_ecall: the external table applied to
the extension id (a7), the function id (a6) and the six argument
registers. -/
def sbiAns (c : Context) (sbi : SbiTable) : SbiRet :=
  sbi (c.a 7) (c.a 6) [c.a 0, c.a 1, c.a 2, c.a 3, c.a 4, c.a 5]

/-- The writeback tail of handle_ecall on a continuing call: status into
a0, value into a1, then advance mepc by 4 with wrapping. -/
def ecallWriteback (c : Context) (ans : SbiRet) : Context :=
  let c1 := c.aset 0 ans.error
  let c2 := c1.aset 1 ans.value
  { c2 with mepc := (c2.mepc + 4) % wordMod }

/-- The early-return condition of Context::handle_ecall: the guarded
nested Rust match on (extension, function) that decides whether a
successful call ends the supervision session.  A match arm whose guard
fails falls through to the wildcard arm, which the nested conditionals
mirror. -/
def stopCondition (c : Context) (ans : SbiRet) : Bool :=
  if ans.error = RET_SUCCESS then
    if c.a 7 = EID_HSM then
      if c.a 6 = HART_STOP then true
      else if c.a 6 = HART_SUSPEND ∧
          u32_try_from (c.a 0) = some HART_SUSPEND_TYPE_NON_RETENTIVE then true
      else false
    else if c.a 7 = EID_SRST then
      if c.a 6 = SYSTEM_RESET ∧
          (u32_try_from (c.a 0) = some RESET_TYPE_COLD_REBOOT ∨
           u32_try_from (c.a 0) = some RESET_TYPE_WARM_REBOOT) then true
      else false
    else false
  else false

/-- Rust method Context::handle_ecall.  Reads the extension id from a7 and
the function id from a6, calls the external SBI table on a0..a5, and either
stops (returning false with the context untouched) when the call is a
successful terminating HSM or SRST request, or writes the result back into
a0 / a1, advances mepc by 4 with wrapping, and returns true. -/
def Context.handle_ecall (c : Context) (sbi : SbiTable) : Bool × Context :=
  if stopCondition c (sbiAns c sbi) then (false, c)
  else (true, ecallWriteback c (sbiAns c sbi))

/-- Rust constant RD_MASK in Context::emulate_rdtime: the 5-bit destination
register field of an instruction word, at bit offset 7. -/
def RD_MASK : Nat := ((1 <<< 5) - 1) <<< 7

/-- The destination-register write of the rdtime emulation: the time value
goes into register rd unless rd is the hard-wired zero register. -/
def rdtimeWrite (c : Context) (timeVal rd : Nat) : Context :=
  if rd ≠ 0 then c.xset rd timeVal else c

/-- Rust method Context::emulate_rdtime.  The hardware time counter read is
passed in as timeVal.  If the instruction word with its destination field
masked out equals the fixed rdtime encoding 0xC0102073, write the counter
into the destination register (unless it is x0), advance mepc by 4 with
wrapping, and report true; otherwise report false with the context
untouched.  The shift amount 7 is RD_MASK.trailing_zeros(). -/
def Context.emulate_rdtime (c : Context) (timeVal ins : Nat) : Bool × Context :=
  if ins &&& compl64 RD_MASK = 0xC0102073 then
    (true, { rdtimeWrite c timeVal ((ins &&& RD_MASK) >>> 7) with
             mepc := ((rdtimeWrite c timeVal ((ins &&& RD_MASK) >>> 7)).mepc + 4) % wordMod })
  else
    (false, c)

/-- The hart-local hardware state outside the Context that the dispatch
loop body and the trap forwarder read and write: the live machine status
word, the machine interrupt-pending register, the CLINT timer comparator
and software-interrupt-pending source, the machine trap-value register,
the supervisor trap CSRs, and the hardware time counter. -/
structure Board where
  mstatus : Nat
  mip : Nat
  mtimecmp : Nat
  msip : Bool
  mtval : Nat
  scause : Nat
  stval : Nat
  sepc : Nat
  stvec : Nat
  timeVal : Nat

/-- A supervisor trap cause as passed to scause::set. -/
inductive STrap where
  | interrupt (code : Nat)
  | exception (code : Nat)

/-- The RV64 bit encoding written into the scause register by scause::set:
interrupts have the top bit set, exceptions are the bare code. -/
def STrap.bits : STrap → Nat
  | .interrupt code => (1 <<< 63) ||| code
  | .exception code => code

/-- mstatus::set_mpp(MPP::Supervisor) of the riscv crate: clear the 2-bit
MPP field at bits 11..12 and set it to 0b01. -/
def setMPPSupervisor (w : Nat) : Nat :=
  (w &&& compl64 (0b11 <<< 11)) ||| (0b01 <<< 11)

/-- mstatus::set_spp of the riscv crate: bit 8 is set for Supervisor and
cleared for User. -/
def setSPP (w : Nat) (supervisor : Bool) : Nat :=
  if supervisor then setBit w 8 else clearBit w 8

/-- stvec::read().address() of the riscv crate: the trap vector base with
the low two mode bits masked off. -/
def stvecAddress (v : Nat) : Nat := v &&& compl64 0b11

/-- The CSR-write sequence of Context::do_transfer_trap once the previous
privilege tag spp is known: set MPP to supervisor and SPP to the tag, fill
scause, stval (copied from mtval) and sepc (the context program counter),
perform the trap-entry interrupt-enable bookkeeping on the live status
word when its SIE bit is set, re-read the live status word into the
context, and redirect the context program counter to the supervisor trap
vector address. -/
def transferTail (c : Context) (b : Board) (cause : STrap) (spp : Bool) :
    Context × Board :=
  let b1 : Board := { b with mstatus := setMPPSupervisor b.mstatus }
  let b2 : Board := { b1 with mstatus := setSPP b1.mstatus spp }
  let b3 : Board := { b2 with scause := cause.bits }
  let b4 : Board := { b3 with stval := b3.mtval }
  let b5 : Board := { b4 with sepc := c.mepc }
  let b6 : Board :=
    if getBit b5.mstatus 1 then
      { b5 with mstatus := clearBit (setBit b5.mstatus 5) 1 }
    else b5
  let c1 : Context := { c with mstatus := b6.mstatus }
  let c2 : Context := { c1 with mepc := stvecAddress b6.stvec }
  (c2, b6)

/-- The live status word after the forwarding sequence of
do_transfer_trap: MPP set to supervisor, SPP set to the tag, and the
trap-entry interrupt-enable bookkeeping applied when SIE was set. -/
def transferStatus (b : Board) (spp : Bool) : Nat :=
  let m1 := setSPP (setMPPSupervisor b.mstatus) spp
  if getBit m1 1 then clearBit (setBit m1 5) 1 else m1

/-- Rust method Context::do_transfer_trap.  Translates the
previous-privilege bits 11..12 of the saved status word into the
supervisor SPP tag and runs the CSR-write sequence; the machine and
hypervisor encodings hit the unreachable arm, modelled as none (no
output is produced). -/
def Context.do_transfer_trap (c : Context) (b : Board) (cause : STrap) :
    Option (Context × Board) :=
  match (c.mstatus >>> 11) &&& 0b11 with
  | 0 => some (transferTail c b cause false)
  | 1 => some (transferTail c b cause true)
  | _ => none

/-- The machine trap cause cases distinguished by the dispatch loop match
in execute_supervisor. -/
inductive MTrap where
  | machineTimer
  | machineSoft
  | supervisorEnvCall
  | illegalInstruction
  | other

/-- The outcome of one iteration of the dispatch loop body: resume the
loop, exit execute_supervisor, report fatally and spin (trap_stop), or
abort on the unreachable privilege encoding in the forwarder. -/
inductive StepOut where
  | resume (c : Context) (b : Board)
  | exit (c : Context) (b : Board)
  | fatal (c : Context) (b : Board)
  | abort

/-- One iteration of the dispatch loop body of execute_supervisor, after
m_to_s has captured a trap with the given cause.  The machine timer arm
disarms the comparator and levels the supervisor timer-pending bit (mip
bit 5); the machine software arm clears the CLINT software pending source
and levels the supervisor software-pending bit (mip bit 1); supervisor
environment calls go to handle_ecall, whose false result exits the loop;
illegal instructions try the rdtime emulator, falling back to forwarding
the trap with scause exception code 2; any other cause is fatal. -/
def loopStep (sbi : SbiTable) (trap : MTrap) (c : Context) (b : Board) : StepOut :=
  match trap with
  | .machineTimer =>
      .resume c { b with mtimecmp := ones64, mip := setBit b.mip 5 }
  | .machineSoft =>
      .resume c { b with msip := false, mip := setBit b.mip 1 }
  | .supervisorEnvCall =>
      match c.handle_ecall sbi with
      | (true, c1) => .resume c1 b
      | (false, c1) => .exit c1 b
  | .illegalInstruction =>
      match c.emulate_rdtime b.timeVal b.mtval with
      | (true, c1) => .resume c1 b
      | (false, c1) =>
          match c1.do_transfer_trap b (.exception 2) with
          | some (c2, b2) => .resume c2 b2
          | none => .abort
  | .other => .fatal c b

/-- The live hardware register bank and the CSRs touched by the two naked
switch routines: general registers (index 1..31; reads of x0 yield 0), the
machine scratch register, the machine status word and the machine
exception program counter. -/
structure Hw where
  x : Nat → Nat
  mscratch : Nat
  mstatus : Nat
  mepc : Nat

/-- Read general register n; the zero register always reads 0. -/
def readReg (h : Hw) (n : Nat) : Nat := if n = 0 then 0 else h.x n

/-- Write general register n; writes to the zero register are discarded. -/
def writeReg (h : Hw) (n v : Nat) : Hw :=
  if n = 0 then h else { h with x := fun m => if m = n then v else h.x m }

/-- Byte-addressed memory, accessed at 8-byte-aligned addresses by the
switch routines. -/
def Mem : Type := Nat → Nat

/-- Store a machine word at a byte address. -/
def st (mem : Mem) (a v : Nat) : Mem := fun b => if b = a then v else mem b

/-- Effective address of a base-plus-offset access, wrapping at 64 bits. -/
def waddr (base off : Nat) : Nat := (base + off) % wordMod

/-- One sd instruction of the unrolled save macro: store register n at
offset 8 * n from the current stack pointer (register 2). -/
def sdx (h : Hw) (mem : Mem) (n : Nat) : Mem :=
  st mem (waddr (readReg h 2) (8 * n)) (readReg h n)

/-- One ld instruction of the unrolled load macro: load register n from
offset 8 * n from the current stack pointer (register 2). -/
def ldx (h : Hw) (mem : Mem) (n : Nat) : Hw :=
  writeReg h n (mem (waddr (readReg h 2) (8 * n)))

/-- The register numbers of the 31-iteration rept save and restore loops. -/
def regs1to31 : List Nat :=
  [1, 2, 3, 4, 5, 6, 7, 8, 9, 10, 11, 12, 13, 14, 15, 16,
   17, 18, 19, 20, 21, 22, 23, 24, 25, 26, 27, 28, 29, 30, 31]

/-- The register numbers of the 29-iteration rept loops that skip x2. -/
def regs3to31 : List Nat :=
  [3, 4, 5, 6, 7, 8, 9, 10, 11, 12, 13, 14, 15, 16,
   17, 18, 19, 20, 21, 22, 23, 24, 25, 26, 27, 28, 29, 30, 31]

/-- A sequence of sd instructions; the stack pointer is not written during
a save loop, so the register bank is fixed. -/
def saveRange (h : Hw) (mem : Mem) (ns : List Nat) : Mem :=
  ns.foldl (fun m n => sdx h m n) mem

/-- A sequence of ld instructions; each instruction reads the stack
pointer as it stands, so loading x2 mid-loop rebases later loads exactly
as the hardware does. -/
def loadRange (mem : Mem) (h : Hw) (ns : List Nat) : Hw :=
  ns.foldl (fun g n => ldx g mem n) h

/-- The stack-frame allocation of m_to_s: addi sp, sp, -32*8 with 64-bit
wrapping. -/
def m2sFrameHw (h0 : Hw) : Hw :=
  writeReg h0 2 (waddr (readReg h0 2) (wordMod - 32 * 8))

/-- The memory effect of the naked routine m_to_s, in instruction order:
after decrementing the stack pointer, save x1..x31 into the 32-word
machine stack frame, then store the decremented machine stack pointer
into context slot 0 (the context address arrives in a0, register 10). -/
def m2sMem (h0 : Hw) (mem0 : Mem) : Mem :=
  st (saveRange (m2sFrameHw h0) mem0 regs1to31)
    (waddr (readReg (m2sFrameHw h0) 10) 0) (readReg (m2sFrameHw h0) 2)

/-- The mv sp, a0 instruction of m_to_s: pivot the stack pointer to the
context address. -/
def m2sH2 (h0 : Hw) : Hw :=
  writeReg (m2sFrameHw h0) 2 (readReg (m2sFrameHw h0) 10)

/-- The ld t0, 2*8(sp) instruction of m_to_s: the supervisor stack
pointer from context slot 2 into register 5. -/
def m2sH3 (h0 : Hw) (mem0 : Mem) : Hw :=
  writeReg (m2sH2 h0) 5 (m2sMem h0 mem0 (waddr (readReg (m2sH2 h0) 2) (2 * 8)))

/-- The ld t1, 32*8(sp) instruction of m_to_s: the status word from
context slot 32 into register 6. -/
def m2sH4 (h0 : Hw) (mem0 : Mem) : Hw :=
  writeReg (m2sH3 h0 mem0) 6
    (m2sMem h0 mem0 (waddr (readReg (m2sH3 h0 mem0) 2) (32 * 8)))

/-- The ld t2, 33*8(sp) instruction of m_to_s: the exception address from
context slot 33 into register 7. -/
def m2sH5 (h0 : Hw) (mem0 : Mem) : Hw :=
  writeReg (m2sH4 h0 mem0) 7
    (m2sMem h0 mem0 (waddr (readReg (m2sH4 h0 mem0) 2) (33 * 8)))

/-- The three csrw instructions of m_to_s: move t0..t2 into mscratch,
mstatus and mepc. -/
def m2sH6 (h0 : Hw) (mem0 : Mem) : Hw :=
  { m2sH5 h0 mem0 with
    mscratch := readReg (m2sH5 h0 mem0) 5,
    mstatus := readReg (m2sH5 h0 mem0) 6,
    mepc := readReg (m2sH5 h0 mem0) 7 }

/-- The ld x1, 1*8(sp) instruction of m_to_s. -/
def m2sH7 (h0 : Hw) (mem0 : Mem) : Hw :=
  ldx (m2sH6 h0 mem0) (m2sMem h0 mem0) 1

/-- The 29-iteration restore loop of m_to_s: x3..x31 from context slots
3..31. -/
def m2sH8 (h0 : Hw) (mem0 : Mem) : Hw :=
  loadRange (m2sMem h0 mem0) (m2sH7 h0 mem0) regs3to31

/-- The register effect of the naked routine m_to_s, in instruction
order, reading from the memory it produced, ending with the csrrw that
swaps sp with mscratch so that supervisor code starts with its own stack
pointer while mscratch holds the context address. -/
def m2sLoadHw (h0 : Hw) (mem0 : Mem) : Hw :=
  { writeReg (m2sH8 h0 mem0) 2 (m2sH8 h0 mem0).mscratch with
    mscratch := readReg (m2sH8 h0 mem0) 2 }

/-- The naked routine m_to_s: enter supervisor mode from machine mode,
split into its register and memory effects.  The mret instruction itself
is the privilege transfer and does not change the modelled state. -/
def m_to_s (h0 : Hw) (mem0 : Mem) : Hw × Mem :=
  (m2sLoadHw h0 mem0, m2sMem h0 mem0)

/-- The sp and mscratch swap at the trap entry of s_to_m: csrrw sp,
mscratch, sp recovers the context address saved by m_to_s while stashing
the trapped supervisor stack pointer. -/
def s2mSwap (h0 : Hw) : Hw :=
  { writeReg h0 2 h0.mscratch with mscratch := readReg h0 2 }

/-- The csrr t0, mscratch instruction of s_to_m: the trapped supervisor
stack pointer into register 5. -/
def s2mH2 (h0 : Hw) : Hw :=
  writeReg (s2mSwap h0) 5 (s2mSwap h0).mscratch

/-- The csrr t1, mstatus instruction of s_to_m. -/
def s2mH3 (h0 : Hw) : Hw :=
  writeReg (s2mH2 h0) 6 (s2mH2 h0).mstatus

/-- The csrr t2, mepc instruction of s_to_m. -/
def s2mH4 (h0 : Hw) : Hw :=
  writeReg (s2mH3 h0) 7 (s2mH3 h0).mepc

/-- The memory effect of the naked routine s_to_m, in instruction order:
after the swap, save x1 and x3..x31 into context slots 1 and 3..31, then
store t0..t2 (registers 5..7, holding the trapped supervisor stack
pointer, mstatus and mepc) into context slots 2, 32 and 33. -/
def s2mMem (h0 : Hw) (mem0 : Mem) : Mem :=
  st (st (st (saveRange (s2mSwap h0) (sdx (s2mSwap h0) mem0 1) regs3to31)
        (waddr (readReg (s2mH4 h0) 2) (2 * 8)) (readReg (s2mH4 h0) 5))
      (waddr (readReg (s2mH4 h0) 2) (32 * 8)) (readReg (s2mH4 h0) 6))
    (waddr (readReg (s2mH4 h0) 2) (33 * 8)) (readReg (s2mH4 h0) 7)

/-- The register effect of the naked routine s_to_m, in instruction
order, reading from the memory it produced: after the swap and the
t0..t2 reads, reload the machine stack pointer from context slot 0,
restore x1..x31 from the machine stack frame (the load of x2 rebases the
remaining loads onto the frame pointer it stored there), and pop the
32-word frame. -/
def s2mHw (h0 : Hw) (mem0 : Mem) : Hw :=
  let h5 := writeReg (s2mH4 h0) 2
    (s2mMem h0 mem0 (waddr (readReg (s2mH4 h0) 2) 0))
  let h6 := loadRange (s2mMem h0 mem0) h5 regs1to31
  writeReg h6 2 (waddr (readReg h6 2) (32 * 8))

/-- The naked routine s_to_m: the trap entry back to machine mode, split
into its register and memory effects. -/
def s_to_m (h0 : Hw) (mem0 : Mem) : Hw × Mem :=
  (s2mHw h0 mem0, s2mMem h0 mem0)

/-- A machine-mode register bank about to enter m_to_s: the machine stack
pointer 1024 in x2, the context address 2048 in a0 (x10), and arbitrary
values g elsewhere. -/
def mkM (g : Nat → Nat) (ms0 ms1 ms2 : Nat) : Hw :=
  { x := fun n => if n = 2 then 1024 else if n = 10 then 2048 else g n,
    mscratch := ms0, mstatus := ms1, mepc := ms2 }

/-- The general-register slots the round trip is claimed over: registers
x1 and x3..x31, excluding the zero register and the stack pointer (whose
slot 2 travels through the scratch indirection). -/
def gprNoSp : List Nat :=
  [1, 3, 4, 5, 6, 7, 8, 9, 10, 11, 12, 13, 14, 15, 16, 17, 18, 19,
   20, 21, 22, 23, 24, 25, 26, 27, 28, 29, 30, 31]

/-! Helper lemmas about the register accessors. -/

theorem Context.a_aset_same (c : Context) (n v : Nat) : (c.aset n v).a n = v := by
  simp [Context.a, Context.aset, Context.xget, Context.xset]

theorem Context.a_aset_of_ne (c : Context) {n m : Nat} (v : Nat) (h : n ≠ m) :
    (c.aset m v).a n = c.a n := by
  simp only [Context.a, Context.aset, Context.xget, Context.xset]
  rw [if_neg (by omega)]

theorem Context.mepc_aset (c : Context) (n v : Nat) : (c.aset n v).mepc = c.mepc := rfl

/-- u32 conversion of a usize succeeds with a given 32-bit value exactly
when the full word equals that value. -/
theorem u32_try_from_eq_some {k : Nat} (hk : k < 2 ^ 32) (n : Nat) :
    u32_try_from n = some k ↔ n = k := by
  unfold u32_try_from
  split
  · simp
  · simp only [reduceCtorEq, false_iff]
    intro h; omega

theorem u32_nonretentive (n : Nat) :
    u32_try_from n = some HART_SUSPEND_TYPE_NON_RETENTIVE ↔
      n = HART_SUSPEND_TYPE_NON_RETENTIVE :=
  u32_try_from_eq_some (by decide) n

theorem u32_cold (n : Nat) :
    u32_try_from n = some RESET_TYPE_COLD_REBOOT ↔ n = RESET_TYPE_COLD_REBOOT :=
  u32_try_from_eq_some (by decide) n

theorem u32_warm (n : Nat) :
    u32_try_from n = some RESET_TYPE_WARM_REBOOT ↔ n = RESET_TYPE_WARM_REBOOT :=
  u32_try_from_eq_some (by decide) n

/-- handle_ecall on a terminating call: report stop, context untouched. -/
theorem handle_ecall_of_stop {c : Context} {sbi : SbiTable}
    (h : stopCondition c (sbiAns c sbi) = true) :
    c.handle_ecall sbi = (false, c) := by
  unfold Context.handle_ecall
  rw [if_pos h]

/-- handle_ecall on a continuing call: report continue with the
writeback. -/
theorem handle_ecall_of_continue {c : Context} {sbi : SbiTable}
    (h : ¬ stopCondition c (sbiAns c sbi) = true) :
    c.handle_ecall sbi = (true, ecallWriteback c (sbiAns c sbi)) := by
  unfold Context.handle_ecall
  rw [if_neg h]

/-- The writeback advances mepc by 4 with wrapping and nothing else does
so. -/
theorem ecallWriteback_mepc (c : Context) (ans : SbiRet) :
    (ecallWriteback c ans).mepc = (c.mepc + 4) % wordMod := rfl

/-- The writeback lands the status in a0. -/
theorem ecallWriteback_a0 (c : Context) (ans : SbiRet) :
    (ecallWriteback c ans).a 0 = ans.error := by
  show ((c.aset 0 ans.error).aset 1 ans.value).a 0 = ans.error
  rw [Context.a_aset_of_ne _ _ (by decide), Context.a_aset_same]

/-- The writeback lands the value in a1. -/
theorem ecallWriteback_a1 (c : Context) (ans : SbiRet) :
    (ecallWriteback c ans).a 1 = ans.value := by
  show ((c.aset 0 ans.error).aset 1 ans.value).a 1 = ans.value
  rw [Context.a_aset_same]

/-- The stop condition of handle_ecall, flattened to a proposition. -/
theorem stopCondition_iff (c : Context) (ans : SbiRet) :
    stopCondition c ans = true ↔
      (ans.error = RET_SUCCESS ∧
       ((c.a 7 = EID_HSM ∧ c.a 6 = HART_STOP) ∨
        (c.a 7 = EID_HSM ∧ c.a 6 = HART_SUSPEND ∧
          c.a 0 = HART_SUSPEND_TYPE_NON_RETENTIVE) ∨
        (c.a 7 = EID_SRST ∧ c.a 6 = SYSTEM_RESET ∧
          (c.a 0 = RESET_TYPE_COLD_REBOOT ∨ c.a 0 = RESET_TYPE_WARM_REBOOT)))) := by
  unfold stopCondition
  split_ifs with h1 h2 h3 h4 h5 h6 <;>
    simp_all [u32_nonretentive, u32_cold, u32_warm, EID_HSM, EID_SRST]

/-- C1: for every supervisor environment call on which handle_ecall
reports continue, after handling the program counter equals its value
before the call plus exactly 4 (the addition does not wrap under the
stated bound) and the two result-argument registers a0 and a1 hold the
status and value returned by the external SBI call table; for every call
on which it reports stop, the program counter and the result registers
are left untouched. -/
theorem C1_ecall_advance_invariant (sbi : SbiTable) (c : Context)
    (h : c.mepc + 4 < wordMod) :
    ((c.handle_ecall sbi).1 = true →
       (c.handle_ecall sbi).2.mepc = c.mepc + 4 ∧
       (c.handle_ecall sbi).2.a 0 = (sbiAns c sbi).error ∧
       (c.handle_ecall sbi).2.a 1 = (sbiAns c sbi).value) ∧
    ((c.handle_ecall sbi).1 = false →
       (c.handle_ecall sbi).2.mepc = c.mepc ∧
       (c.handle_ecall sbi).2.a 0 = c.a 0 ∧
       (c.handle_ecall sbi).2.a 1 = c.a 1) := by
  by_cases hs : stopCondition c (sbiAns c sbi) = true
  · rw [handle_ecall_of_stop hs]
    simp
  · rw [handle_ecall_of_continue hs]
    refine ⟨fun _ => ⟨?_, ?_, ?_⟩, by simp⟩
    · rw [ecallWriteback_mepc]
      exact Nat.mod_eq_of_lt h
    · exact ecallWriteback_a0 c (sbiAns c sbi)
    · exact ecallWriteback_a1 c (sbiAns c sbi)

/-- Witness for C1 at a concrete input: a call through a table answering
(0, 7) from a context whose program counter is 100 continues, lands the
result in a0 and a1, and advances the program counter to 104. -/
theorem C1_ecall_advance_invariant_witness :
    (100 : Nat) + 4 < wordMod ∧
      ((Context.handle_ecall ⟨0, fun _ => 0, 0, 100⟩ (fun _ _ _ => ⟨0, 7⟩)).1 = true →
        (Context.handle_ecall ⟨0, fun _ => 0, 0, 100⟩ (fun _ _ _ => ⟨0, 7⟩)).2.mepc = 104) := by
  refine ⟨by decide, fun hc => ?_⟩
  have h := C1_ecall_advance_invariant (fun _ _ _ => ⟨0, 7⟩)
    ⟨0, fun _ => 0, 0, 100⟩ (by decide)
  exact (h.1 hc).1

/-- C2: handle_ecall reports stop if and only if the external call
returned a success status and the call was Hart State Management stop,
Hart State Management suspend with the non-retentive suspend type, or
System Reset with the cold-reboot or warm-reboot reset type; every other
successful call input causes the loop to continue. -/
theorem C2_termination_completeness (sbi : SbiTable) (c : Context) :
    (c.handle_ecall sbi).1 = false ↔
      ((sbiAns c sbi).error = RET_SUCCESS ∧
       ((c.a 7 = EID_HSM ∧ c.a 6 = HART_STOP) ∨
        (c.a 7 = EID_HSM ∧ c.a 6 = HART_SUSPEND ∧
          c.a 0 = HART_SUSPEND_TYPE_NON_RETENTIVE) ∨
        (c.a 7 = EID_SRST ∧ c.a 6 = SYSTEM_RESET ∧
          (c.a 0 = RESET_TYPE_COLD_REBOOT ∨ c.a 0 = RESET_TYPE_WARM_REBOOT)))) := by
  rw [← stopCondition_iff c (sbiAns c sbi)]
  by_cases hs : stopCondition c (sbiAns c sbi) = true
  · rw [handle_ecall_of_stop hs]
    simp [hs]
  · rw [handle_ecall_of_continue hs]
    simp [hs]

/-- C10: a Hart State Management suspend call or a System Reset call whose
first argument register holds a value of at least 2 to the 32, even one
whose low 32 bits encode a terminating suspend or reset type, makes
handle_ecall report continue with the normal result writeback and the
program counter advance, because the terminating-type comparison requires
the full argument word to convert exactly to a 32-bit value. -/
theorem C10_wide_argument_continues (sbi : SbiTable) (c : Context)
    (hbig : 2 ^ 32 ≤ c.a 0)
    (hsucc : (sbiAns c sbi).error = RET_SUCCESS)
    (hcase : (c.a 7 = EID_HSM ∧ c.a 6 = HART_SUSPEND) ∨
             (c.a 7 = EID_SRST ∧ c.a 6 = SYSTEM_RESET)) :
    (c.handle_ecall sbi).1 = true ∧
    (c.handle_ecall sbi).2.a 0 = (sbiAns c sbi).error ∧
    (c.handle_ecall sbi).2.a 1 = (sbiAns c sbi).value ∧
    (c.handle_ecall sbi).2.mepc = (c.mepc + 4) % wordMod := by
  have hns : ¬ stopCondition c (sbiAns c sbi) = true := by
    rw [stopCondition_iff]
    rintro ⟨-, hd⟩
    rcases hcase with ⟨h7, h6⟩ | ⟨h7, h6⟩ <;>
      rcases hd with ⟨ha, hb⟩ | ⟨ha, hb, hd⟩ | ⟨ha, hb, hd⟩ <;>
      simp_all [EID_HSM, EID_SRST, HART_STOP, HART_SUSPEND, SYSTEM_RESET,
        HART_SUSPEND_TYPE_NON_RETENTIVE, RESET_TYPE_COLD_REBOOT,
        RESET_TYPE_WARM_REBOOT] <;>
      omega
  rw [handle_ecall_of_continue hns]
  exact ⟨rfl, ecallWriteback_a0 c (sbiAns c sbi),
    ecallWriteback_a1 c (sbiAns c sbi), rfl⟩

/-- Witness for C10 at a concrete input: a successful Hart State
Management suspend whose argument word is 2 to the 32 plus the
non-retentive type continues and advances the program counter to 104. -/
theorem C10_wide_argument_continues_witness :
    (2 ^ 32 ≤ (⟨0, fun n => if n = 16 then EID_HSM else if n = 15 then HART_SUSPEND
        else if n = 9 then 2 ^ 32 + HART_SUSPEND_TYPE_NON_RETENTIVE else 0,
        0, 100⟩ : Context).a 0) ∧
    ((⟨0, fun n => if n = 16 then EID_HSM else if n = 15 then HART_SUSPEND
        else if n = 9 then 2 ^ 32 + HART_SUSPEND_TYPE_NON_RETENTIVE else 0,
        0, 100⟩ : Context).handle_ecall (fun _ _ _ => ⟨0, 9⟩)).1 = true := by
  refine ⟨by decide, ?_⟩
  exact (C10_wide_argument_continues (fun _ _ _ => ⟨0, 9⟩) _
    (by decide) (by decide) (Or.inl ⟨by decide, by decide⟩)).1

/-- The skipped zero-register write leaves the program counter field of
the context unchanged. -/
theorem rdtimeWrite_mepc (c : Context) (timeVal rd : Nat) :
    (rdtimeWrite c timeVal rd).mepc = c.mepc := by
  unfold rdtimeWrite
  split <;> rfl

/-- Writing a nonzero destination register lands the time value there. -/
theorem rdtimeWrite_xget (c : Context) (timeVal : Nat) {rd : Nat}
    (h : rd ≠ 0) : (rdtimeWrite c timeVal rd).xget rd = timeVal := by
  unfold rdtimeWrite
  rw [if_pos h]
  simp [Context.xget, Context.xset]

/-- C6: for a trapped instruction word matching the real-time-counter
pattern, emulate_rdtime writes the hardware time counter value into the
destination register when it is not the zero register, advances the
program counter by 4 in 64-bit arithmetic, and reports handled; for a
non-matching word it reports not handled and leaves the context
untouched. -/
theorem C6_rdtime_match_and_miss (c : Context) (timeVal ins : Nat) :
    (ins &&& compl64 RD_MASK = 0xC0102073 →
       (c.emulate_rdtime timeVal ins).1 = true ∧
       (c.emulate_rdtime timeVal ins).2.mepc = (c.mepc + 4) % wordMod ∧
       ((ins &&& RD_MASK) >>> 7 ≠ 0 →
         (c.emulate_rdtime timeVal ins).2.xget ((ins &&& RD_MASK) >>> 7)
           = timeVal)) ∧
    (ins &&& compl64 RD_MASK ≠ 0xC0102073 →
       c.emulate_rdtime timeVal ins = (false, c)) := by
  by_cases hm : ins &&& compl64 RD_MASK = 0xC0102073
  · refine ⟨fun _ => ?_, fun hn => absurd hm hn⟩
    unfold Context.emulate_rdtime
    rw [if_pos hm]
    refine ⟨rfl, ?_, fun hrd => ?_⟩
    · show ((rdtimeWrite c timeVal ((ins &&& RD_MASK) >>> 7)).mepc + 4) % wordMod
        = (c.mepc + 4) % wordMod
      rw [rdtimeWrite_mepc]
    · show (rdtimeWrite c timeVal ((ins &&& RD_MASK) >>> 7)).xget
        ((ins &&& RD_MASK) >>> 7) = timeVal
      exact rdtimeWrite_xget c timeVal hrd
  · refine ⟨fun hy => absurd hy hm, fun _ => ?_⟩
    unfold Context.emulate_rdtime
    rw [if_neg hm]

/-- Witness for C6 at a concrete input: the rdtime encoding with
destination register 5 writes time value 55 into register 5, and a
non-matching word is left unhandled. -/
theorem C6_rdtime_match_and_miss_witness :
    ((0xC01022F3 : Nat) &&& compl64 RD_MASK = 0xC0102073 ∧
      ((⟨0, fun _ => 0, 0, 100⟩ : Context).emulate_rdtime 55 0xC01022F3).2.xget 5 = 55) ∧
    ((0x12345678 : Nat) &&& compl64 RD_MASK ≠ 0xC0102073 ∧
      (⟨0, fun _ => 0, 0, 100⟩ : Context).emulate_rdtime 55 0x12345678
        = (false, ⟨0, fun _ => 0, 0, 100⟩)) := by
  refine ⟨⟨by decide, ?_⟩, ⟨by decide, ?_⟩⟩
  · exact ((C6_rdtime_match_and_miss ⟨0, fun _ => 0, 0, 100⟩ 55 0xC01022F3).1
      (by decide)).2.2 (by decide)
  · exact (C6_rdtime_match_and_miss ⟨0, fun _ => 0, 0, 100⟩ 55 0x12345678).2
      (by decide)

/-- C7: two 32-bit instruction words that differ only in the 5-bit
destination-register field at bit offset 7 are classified alike by
emulate_rdtime: both as the recognized pattern or neither. -/
theorem C7_mask_classification (c : Context) (timeVal i1 i2 : Nat)
    (h1 : i1 < 2 ^ 32) (h2 : i2 < 2 ^ 32)
    (h : i1 &&& compl64 RD_MASK = i2 &&& compl64 RD_MASK) :
    (c.emulate_rdtime timeVal i1).1 = (c.emulate_rdtime timeVal i2).1 := by
  unfold Context.emulate_rdtime
  rw [h]
  split <;> rfl

/-- Witness for C7 at a concrete input: the base rdtime encoding and the
same word with destination register 5 are classified alike. -/
theorem C7_mask_classification_witness :
    ((0xC0102073 : Nat) < 2 ^ 32 ∧ (0xC01022F3 : Nat) < 2 ^ 32 ∧
      (0xC0102073 : Nat) &&& compl64 RD_MASK = 0xC01022F3 &&& compl64 RD_MASK) ∧
    ((⟨0, fun _ => 0, 0, 100⟩ : Context).emulate_rdtime 55 0xC0102073).1
      = ((⟨0, fun _ => 0, 0, 100⟩ : Context).emulate_rdtime 55 0xC01022F3).1 := by
  refine ⟨⟨by decide, by decide, by decide⟩, ?_⟩
  exact C7_mask_classification ⟨0, fun _ => 0, 0, 100⟩ 55 0xC0102073 0xC01022F3
    (by decide) (by decide) (by decide)

/-! A small kit of bit-read lemmas over the word operations. -/

theorem getBit_and (w m i : Nat) : getBit (w &&& m) i = (getBit w i && getBit m i) := by
  simp [getBit]

theorem getBit_or (w m i : Nat) : getBit (w ||| m) i = (getBit w i || getBit m i) := by
  simp [getBit]

theorem getBit_setBit_self (w : Nat) {j : Nat} (h : getBit (1 <<< j) j = true) :
    getBit (setBit w j) j = true := by
  rw [setBit, getBit_or, h, Bool.or_true]

theorem getBit_setBit_of_ne (w : Nat) {i j : Nat} (h : getBit (1 <<< j) i = false) :
    getBit (setBit w j) i = getBit w i := by
  rw [setBit, getBit_or, h, Bool.or_false]

theorem getBit_clearBit_self (w : Nat) {j : Nat}
    (h : getBit (compl64 (1 <<< j)) j = false) :
    getBit (clearBit w j) j = false := by
  rw [clearBit, getBit_and, h, Bool.and_false]

theorem getBit_clearBit_of_ne (w : Nat) {i j : Nat}
    (h : getBit (compl64 (1 <<< j)) i = true) :
    getBit (clearBit w j) i = getBit w i := by
  rw [clearBit, getBit_and, h, Bool.and_true]

theorem getBit_setMPPSupervisor (w : Nat) {i : Nat}
    (hm : getBit (compl64 (0b11 <<< 11)) i = true)
    (hv : getBit (0b01 <<< 11) i = false) :
    getBit (setMPPSupervisor w) i = getBit w i := by
  rw [setMPPSupervisor, getBit_or, getBit_and, hm, hv, Bool.and_true, Bool.or_false]

theorem getBit_setSPP_of_ne (w : Nat) (spp : Bool) {i : Nat}
    (hs : getBit (1 <<< 8) i = false)
    (hc : getBit (compl64 (1 <<< 8)) i = true) :
    getBit (setSPP w spp) i = getBit w i := by
  cases spp
  · exact getBit_clearBit_of_ne w hc
  · exact getBit_setBit_of_ne w hs

theorem getBit_setSPP_self (w : Nat) (spp : Bool) :
    getBit (setSPP w spp) 8 = spp := by
  cases spp
  · exact getBit_clearBit_self w (by decide)
  · exact getBit_setBit_self w (by decide)

/-- transferTail written as explicit records, with the status-word
computation factored into transferStatus. -/
theorem transferTail_eq (c : Context) (b : Board) (cause : STrap) (spp : Bool) :
    transferTail c b cause spp =
      (⟨c.msp, c.x, transferStatus b spp, stvecAddress b.stvec⟩,
       ⟨transferStatus b spp, b.mip, b.mtimecmp, b.msip, b.mtval,
        cause.bits, b.mtval, c.mepc, b.stvec, b.timeVal⟩) := by
  unfold transferTail transferStatus
  simp only []
  split <;> rfl

/-- Bit 1 of the status word survives the MPP and SPP field writes. -/
theorem getBit_one_preserved (w : Nat) (spp : Bool) :
    getBit (setSPP (setMPPSupervisor w) spp) 1 = getBit w 1 := by
  rw [getBit_setSPP_of_ne _ _ (by decide) (by decide),
    getBit_setMPPSupervisor _ (by decide) (by decide)]

/-- When the live SIE bit was set, the forwarding sequence moves it into
SPIE (bit 5 set) and clears the live SIE bit (bit 1 cleared). -/
theorem transferStatus_sie_moved (b : Board) (spp : Bool)
    (h : getBit b.mstatus 1 = true) :
    getBit (transferStatus b spp) 5 = true ∧
      getBit (transferStatus b spp) 1 = false := by
  unfold transferStatus
  rw [if_pos ((getBit_one_preserved b.mstatus spp).trans h)]
  constructor
  · rw [getBit_clearBit_of_ne _ (by decide)]
    exact getBit_setBit_self _ (by decide)
  · exact getBit_clearBit_self _ (by decide)

/-- The SPP tag written by the forwarding sequence is readable as bit 8 of
the resulting status word. -/
theorem transferStatus_spp (b : Board) (spp : Bool) :
    getBit (transferStatus b spp) 8 = spp := by
  unfold transferStatus
  simp only []
  split
  · rw [getBit_clearBit_of_ne _ (by decide), getBit_setBit_of_ne _ (by decide)]
    exact getBit_setSPP_self _ spp
  · exact getBit_setSPP_self _ spp

/-- do_transfer_trap on a user previous privilege. -/
theorem do_transfer_trap_user {c : Context} (b : Board) (cause : STrap)
    (h : (c.mstatus >>> 11) &&& 0b11 = 0) :
    c.do_transfer_trap b cause = some (transferTail c b cause false) := by
  unfold Context.do_transfer_trap
  rw [h]

/-- do_transfer_trap on a supervisor previous privilege. -/
theorem do_transfer_trap_supervisor {c : Context} (b : Board) (cause : STrap)
    (h : (c.mstatus >>> 11) &&& 0b11 = 1) :
    c.do_transfer_trap b cause = some (transferTail c b cause true) := by
  unfold Context.do_transfer_trap
  rw [h]

/-- do_transfer_trap aborts on the two remaining encodings. -/
theorem do_transfer_trap_none {c : Context} (b : Board) (cause : STrap)
    (h : (c.mstatus >>> 11) &&& 0b11 = 2 ∨ (c.mstatus >>> 11) &&& 0b11 = 3) :
    c.do_transfer_trap b cause = none := by
  unfold Context.do_transfer_trap
  rcases h with h | h <;> rw [h]

/-- C4: if the previous-privilege bits 11..12 extracted from the saved
status word encode user (00) the trap forwarder produces the supervisor
previous-privilege tag User (SPP bit clear), if they encode supervisor
(01) it produces Supervisor (SPP bit set), and for the other two 2-bit
values (10 and 11) it aborts without producing any output. -/
theorem C4_forwarding_privilege_map (c : Context) (b : Board) (cause : STrap) :
    ((c.mstatus >>> 11) &&& 0b11 = 0 →
       ∃ p, c.do_transfer_trap b cause = some p ∧ getBit p.2.mstatus 8 = false) ∧
    ((c.mstatus >>> 11) &&& 0b11 = 1 →
       ∃ p, c.do_transfer_trap b cause = some p ∧ getBit p.2.mstatus 8 = true) ∧
    ((c.mstatus >>> 11) &&& 0b11 = 2 ∨ (c.mstatus >>> 11) &&& 0b11 = 3 →
       c.do_transfer_trap b cause = none) := by
  refine ⟨fun h => ?_, fun h => ?_, fun h => do_transfer_trap_none b cause h⟩
  · refine ⟨transferTail c b cause false, do_transfer_trap_user b cause h, ?_⟩
    rw [transferTail_eq]
    exact transferStatus_spp b false
  · refine ⟨transferTail c b cause true, do_transfer_trap_supervisor b cause h, ?_⟩
    rw [transferTail_eq]
    exact transferStatus_spp b true

/-- Witness for C4 at concrete inputs: a saved status word with MPP = 00
forwards with SPP clear, and one with MPP = 10 aborts. -/
theorem C4_forwarding_privilege_map_witness :
    (((0 : Nat) >>> 11) &&& 0b11 = 0 ∧
      ∃ p, (⟨0, fun _ => 0, 0, 0⟩ : Context).do_transfer_trap
          ⟨0, 0, 0, false, 0, 0, 0, 0, 0, 0⟩ (.exception 2) = some p ∧
        getBit p.2.mstatus 8 = false) ∧
    (((2 <<< 11 : Nat) >>> 11) &&& 0b11 = 2 ∧
      (⟨0, fun _ => 0, 2 <<< 11, 0⟩ : Context).do_transfer_trap
          ⟨0, 0, 0, false, 0, 0, 0, 0, 0, 0⟩ (.exception 2) = none) := by
  refine ⟨⟨by decide, ?_⟩, ⟨by decide, ?_⟩⟩
  · exact (C4_forwarding_privilege_map ⟨0, fun _ => 0, 0, 0⟩
      ⟨0, 0, 0, false, 0, 0, 0, 0, 0, 0⟩ (.exception 2)).1 (by decide)
  · exact (C4_forwarding_privilege_map ⟨0, fun _ => 0, 2 <<< 11, 0⟩
      ⟨0, 0, 0, false, 0, 0, 0, 0, 0, 0⟩ (.exception 2)).2.2 (Or.inl (by decide))

/-- C5: for every forwarded trap with a legal previous privilege level,
the trap forwarder sets the supervisor cause register to the given cause,
copies the machine trap-value register into the supervisor trap-value
register, writes the context program counter into the supervisor
exception address, moves a set supervisor interrupt-enable bit into the
previous-interrupt-enable bit while clearing the live enable bit,
re-reads the status word into the context, and redirects the context
program counter to the supervisor trap-vector address. -/
theorem C5_transfer_trap_fields (c : Context) (b : Board) (cause : STrap)
    (h : (c.mstatus >>> 11) &&& 0b11 = 0 ∨ (c.mstatus >>> 11) &&& 0b11 = 1) :
    ∃ c2 b2, c.do_transfer_trap b cause = some (c2, b2) ∧
      b2.scause = cause.bits ∧
      b2.stval = b.mtval ∧
      b2.sepc = c.mepc ∧
      c2.mstatus = b2.mstatus ∧
      c2.mepc = stvecAddress b.stvec ∧
      (getBit b.mstatus 1 = true →
        getBit b2.mstatus 5 = true ∧ getBit b2.mstatus 1 = false) := by
  rcases h with h | h
  · refine ⟨_, _, by rw [do_transfer_trap_user b cause h, transferTail_eq],
      rfl, rfl, rfl, rfl, rfl, fun hsie => ?_⟩
    exact transferStatus_sie_moved b false hsie
  · refine ⟨_, _, by rw [do_transfer_trap_supervisor b cause h, transferTail_eq],
      rfl, rfl, rfl, rfl, rfl, fun hsie => ?_⟩
    exact transferStatus_sie_moved b true hsie

/-- Witness for C5 at a concrete input: forwarding an illegal-instruction
cause from a context at address 96 with SIE set fills the supervisor trap
CSRs and redirects to the trap vector at 4096. -/
theorem C5_transfer_trap_fields_witness :
    ((((2 : Nat) >>> 11) &&& 0b11 = 0 ∨ ((2 : Nat) >>> 11) &&& 0b11 = 1) ∧
      ∃ c2 b2, (⟨0, fun _ => 0, 2, 96⟩ : Context).do_transfer_trap
          ⟨2, 0, 0, false, 77, 0, 0, 0, 4096, 0⟩ (.exception 2) = some (c2, b2) ∧
        b2.scause = (STrap.exception 2).bits ∧
        b2.stval = 77 ∧
        b2.sepc = 96 ∧
        c2.mstatus = b2.mstatus ∧
        c2.mepc = stvecAddress 4096 ∧
        (getBit (2 : Nat) 1 = true →
          getBit b2.mstatus 5 = true ∧ getBit b2.mstatus 1 = false)) := by
  refine ⟨Or.inl (by decide), ?_⟩
  exact C5_transfer_trap_fields ⟨0, fun _ => 0, 2, 96⟩
    ⟨2, 0, 0, false, 77, 0, 0, 0, 4096, 0⟩ (.exception 2) (Or.inl (by decide))

/-- C8: on a machine timer interrupt the dispatch loop body disarms the
timer comparator (writes the all-ones maximum), sets the supervisor-level
timer-pending bit (mip bit 5), and continues the loop; on a machine
software interrupt it clears the hart software-interrupt-pending source
and sets the supervisor-level software-pending bit (mip bit 1), and
continues; in both cases the context and the supervisor trap CSRs are
untouched, so nothing is forwarded to the supervisor trap vector. -/
theorem C8_leveled_interrupts (sbi : SbiTable) (c : Context) (b : Board) :
    (∃ b1, loopStep sbi .machineTimer c b = .resume c b1 ∧
       b1.mtimecmp = ones64 ∧
       getBit b1.mip 5 = true ∧
       b1.scause = b.scause ∧ b1.stval = b.stval ∧
       b1.sepc = b.sepc ∧ b1.stvec = b.stvec) ∧
    (∃ b2, loopStep sbi .machineSoft c b = .resume c b2 ∧
       b2.msip = false ∧
       getBit b2.mip 1 = true ∧
       b2.scause = b.scause ∧ b2.stval = b.stval ∧
       b2.sepc = b.sepc ∧ b2.stvec = b.stvec) := by
  constructor
  · refine ⟨_, rfl, rfl, ?_, rfl, rfl, rfl, rfl⟩
    exact getBit_setBit_self b.mip (by decide)
  · refine ⟨_, rfl, rfl, ?_, rfl, rfl, rfl, rfl⟩
    exact getBit_setBit_self b.mip (by decide)

/-! Evaluation layer for the switch primitives.  The round-trip and
layout theorems are stated at a concrete machine stack pointer (1024) and
a concrete context address (2048), with every register value, every
memory value and every control register universally quantified; the two
regions (frame words 776..1016, context words 2048..2312) are disjoint. -/

/-- An effective address below the word modulus does not wrap. -/
theorem waddr_small {b o : Nat} (h : b + o < 2 ^ 64) : waddr b o = b + o := by
  unfold waddr wordMod
  exact Nat.mod_eq_of_lt h

/-- The wrapping frame decrement from stack pointer 1024. -/
theorem waddr_dec : waddr 1024 (wordMod - 32 * 8) = 768 := by
  norm_num [waddr, wordMod]

/-- The frame allocation on the mkM bank decrements the stack pointer to
768. -/
theorem m2sFrameHw_mkM (g : Nat → Nat) (ms0 ms1 ms2 : Nat) :
    m2sFrameHw (mkM g ms0 ms1 ms2) = writeReg (mkM g ms0 ms1 ms2) 2 768 := by
  unfold m2sFrameHw
  rw [show readReg (mkM g ms0 ms1 ms2) 2 = 1024 from rfl, waddr_dec]

/-! Read-over-store and register-file lemmas. -/

theorem st_read_same (m : Mem) (a v : Nat) : st m a v a = v := if_pos rfl

theorem st_read_ne (m : Mem) {a b : Nat} (v : Nat) (hne : b ≠ a) :
    st m a v b = m b := if_neg hne

theorem readReg_writeReg_self (h : Hw) {n : Nat} (v : Nat) (hn : n ≠ 0) :
    readReg (writeReg h n v) n = v := by
  unfold readReg writeReg
  rw [if_neg hn, if_neg hn]
  show (if n = n then v else h.x n) = v
  rw [if_pos rfl]

theorem readReg_writeReg_ne (h : Hw) {n k : Nat} (v : Nat) (hk : k ≠ n) :
    readReg (writeReg h n v) k = readReg h k := by
  unfold readReg writeReg
  by_cases hk0 : k = 0
  · simp [hk0]
  · by_cases hn0 : n = 0
    · simp [hk0, hn0]
    · simp [hk0, hn0, hk]

theorem writeReg_mscratch (h : Hw) (n v : Nat) :
    (writeReg h n v).mscratch = h.mscratch := by
  unfold writeReg
  split <;> rfl

theorem writeReg_mstatus (h : Hw) (n v : Nat) :
    (writeReg h n v).mstatus = h.mstatus := by
  unfold writeReg
  split <;> rfl

theorem writeReg_mepc (h : Hw) (n v : Nat) :
    (writeReg h n v).mepc = h.mepc := by
  unfold writeReg
  split <;> rfl

/-- Reading an address none of the save loop's stores hit sees the
underlying memory. -/
theorem saveRange_out (h : Hw) (mem : Mem) (ns : List Nat) (A : Nat)
    (ha : ∀ n ∈ ns, waddr (readReg h 2) (8 * n) ≠ A) :
    saveRange h mem ns A = mem A := by
  induction ns generalizing mem with
  | nil => rfl
  | cons j js ih =>
    show saveRange h (sdx h mem j) js A = mem A
    rw [ih (sdx h mem j) (fun x hx => ha x (List.mem_cons_of_mem j hx))]
    exact st_read_ne mem _ (Ne.symm (ha j (List.mem_cons_self j js)))

/-- Reading the address of one of the save loop's stores sees the saved
register, provided no other store of the loop aliases it. -/
theorem saveRange_at (h : Hw) (mem : Mem) (ns : List Nat) (k : Nat)
    (hk : k ∈ ns)
    (hinj : ∀ j ∈ ns,
      waddr (readReg h 2) (8 * j) = waddr (readReg h 2) (8 * k) → j = k) :
    saveRange h mem ns (waddr (readReg h 2) (8 * k)) = readReg h k := by
  induction ns generalizing mem with
  | nil => cases hk
  | cons j js ih =>
    show saveRange h (sdx h mem j) js _ = _
    by_cases hkjs : k ∈ js
    · exact ih (sdx h mem j) hkjs
        (fun x hx hEq => hinj x (List.mem_cons_of_mem j hx) hEq)
    · have hjk : j = k := by
        rcases List.mem_cons.mp hk with hh | hh
        · exact hh.symm
        · exact absurd hh hkjs
      subst hjk
      rw [saveRange_out h _ js _
        (fun x hx hEq => absurd (hinj x (List.mem_cons_of_mem j hx) hEq ▸ hx) hkjs)]
      exact st_read_same mem _ _

/-- A register the load loop does not touch keeps its value. -/
theorem loadRange_out (mem : Mem) (h : Hw) (ns : List Nat) (k : Nat)
    (hk : k ∉ ns) :
    readReg (loadRange mem h ns) k = readReg h k := by
  induction ns generalizing h with
  | nil => rfl
  | cons j js ih =>
    show readReg (loadRange mem (ldx h mem j) js) k = _
    rw [ih (ldx h mem j) (fun hx => hk (List.mem_cons_of_mem j hx))]
    exact readReg_writeReg_ne h _ (fun hkj => hk (hkj ▸ List.mem_cons_self j js))

/-- A register the load loop does touch ends up holding the memory word
at its slot, as long as the loop never reloads the base register x2 and
loads each register once. -/
theorem loadRange_at (mem : Mem) (h : Hw) (ns : List Nat) (k : Nat)
    (hk : k ∈ ns) (h2 : 2 ∉ ns) (h0 : k ≠ 0) (hd : ns.Nodup) :
    readReg (loadRange mem h ns) k = mem (waddr (readReg h 2) (8 * k)) := by
  induction ns generalizing h with
  | nil => cases hk
  | cons j js ih =>
    show readReg (loadRange mem (ldx h mem j) js) k = _
    have hj2 : j ≠ 2 := fun hh => h2 (hh ▸ List.mem_cons_self j js)
    by_cases hkjs : k ∈ js
    · rw [ih (ldx h mem j) hkjs (fun hx => h2 (List.mem_cons_of_mem j hx))
        (List.nodup_cons.mp hd).2]
      have hbase : readReg (ldx h mem j) 2 = readReg h 2 :=
        readReg_writeReg_ne h _ (Ne.symm hj2)
      rw [hbase]
    · have hjk : j = k := by
        rcases List.mem_cons.mp hk with hh | hh
        · exact hh.symm
        · exact absurd hh hkjs
      rw [loadRange_out mem _ js k
        (fun hx => (List.nodup_cons.mp hd).1 (by rw [hjk]; exact hx))]
      have : readReg (ldx h mem j) j = mem (waddr (readReg h 2) (8 * j)) :=
        readReg_writeReg_self h _ (fun hh => h0 (hjk.symm.trans hh))
      rw [← hjk, this]

theorem loadRange_mscratch (mem : Mem) (h : Hw) (ns : List Nat) :
    (loadRange mem h ns).mscratch = h.mscratch := by
  induction ns generalizing h with
  | nil => rfl
  | cons j js ih =>
    show (loadRange mem (ldx h mem j) js).mscratch = _
    rw [ih (ldx h mem j)]
    exact writeReg_mscratch h _ _

theorem loadRange_mstatus (mem : Mem) (h : Hw) (ns : List Nat) :
    (loadRange mem h ns).mstatus = h.mstatus := by
  induction ns generalizing h with
  | nil => rfl
  | cons j js ih =>
    show (loadRange mem (ldx h mem j) js).mstatus = _
    rw [ih (ldx h mem j)]
    exact writeReg_mstatus h _ _

theorem loadRange_mepc (mem : Mem) (h : Hw) (ns : List Nat) :
    (loadRange mem h ns).mepc = h.mepc := by
  induction ns generalizing h with
  | nil => rfl
  | cons j js ih =>
    show (loadRange mem (ldx h mem j) js).mepc = _
    rw [ih (ldx h mem j)]
    exact writeReg_mepc h _ _

theorem readReg_setScratch (h : Hw) (v n : Nat) :
    readReg { h with mscratch := v } n = readReg h n := rfl

theorem readReg_setCsrs (h : Hw) (a b c n : Nat) :
    readReg { h with mscratch := a, mstatus := b, mepc := c } n
      = readReg h n := rfl

theorem readReg_setStatusEpc (h : Hw) (s e n : Nat) :
    readReg { h with mstatus := s, mepc := e } n = readReg h n := rfl

theorem waddr_2048_0 : waddr 2048 0 = 2048 := by
  norm_num [waddr, wordMod]

/-! Evaluation of the forward switch m_to_s on the mkM bank. -/

theorem m2sFrame_sp (g : Nat → Nat) (ms0 ms1 ms2 : Nat) :
    readReg (m2sFrameHw (mkM g ms0 ms1 ms2)) 2 = 768 := by
  rw [m2sFrameHw_mkM]
  exact readReg_writeReg_self _ _ (by decide)

theorem m2sFrame_a0 (g : Nat → Nat) (ms0 ms1 ms2 : Nat) :
    readReg (m2sFrameHw (mkM g ms0 ms1 ms2)) 10 = 2048 := by
  rw [m2sFrameHw_mkM, readReg_writeReg_ne _ _ (by decide)]
  rfl

/-- The frame writes of m_to_s land at 776..1016 and the slot 0 write at
2048, so every address in the context record above slot 0 is untouched. -/
theorem m2sMem_out (g : Nat → Nat) (ms0 ms1 ms2 : Nat) (mem0 : Mem) (A : Nat)
    (hlo : 2048 < A) (hhi : A ≤ 2312) :
    m2sMem (mkM g ms0 ms1 ms2) mem0 A = mem0 A := by
  have hle : ∀ x ∈ regs1to31, x ≤ 31 := by decide
  unfold m2sMem
  rw [m2sFrame_a0, waddr_2048_0, st_read_ne _ _ (by omega)]
  apply saveRange_out
  intro n hn
  rw [m2sFrame_sp, waddr_small (by have := hle n hn; omega)]
  have := hle n hn
  omega

/-- Context slot 0 holds the decremented machine stack pointer after
m_to_s. -/
theorem m2sMem_slot0 (g : Nat → Nat) (ms0 ms1 ms2 : Nat) (mem0 : Mem) :
    m2sMem (mkM g ms0 ms1 ms2) mem0 2048 = 768 := by
  unfold m2sMem
  rw [m2sFrame_a0, waddr_2048_0, m2sFrame_sp]
  exact st_read_same _ _ _

theorem m2sH2_sp (g : Nat → Nat) (ms0 ms1 ms2 : Nat) :
    readReg (m2sH2 (mkM g ms0 ms1 ms2)) 2 = 2048 := by
  unfold m2sH2
  rw [readReg_writeReg_self _ _ (by decide), m2sFrame_a0]

theorem m2sH3_sp (g : Nat → Nat) (ms0 ms1 ms2 : Nat) (mem0 : Mem) :
    readReg (m2sH3 (mkM g ms0 ms1 ms2) mem0) 2 = 2048 := by
  unfold m2sH3
  rw [readReg_writeReg_ne _ _ (by decide), m2sH2_sp]

theorem m2sH4_sp (g : Nat → Nat) (ms0 ms1 ms2 : Nat) (mem0 : Mem) :
    readReg (m2sH4 (mkM g ms0 ms1 ms2) mem0) 2 = 2048 := by
  unfold m2sH4
  rw [readReg_writeReg_ne _ _ (by decide), m2sH3_sp]

theorem m2sH5_sp (g : Nat → Nat) (ms0 ms1 ms2 : Nat) (mem0 : Mem) :
    readReg (m2sH5 (mkM g ms0 ms1 ms2) mem0) 2 = 2048 := by
  unfold m2sH5
  rw [readReg_writeReg_ne _ _ (by decide), m2sH4_sp]

theorem m2sH6_sp (g : Nat → Nat) (ms0 ms1 ms2 : Nat) (mem0 : Mem) :
    readReg (m2sH6 (mkM g ms0 ms1 ms2) mem0) 2 = 2048 := by
  unfold m2sH6
  rw [readReg_setCsrs, m2sH5_sp]

theorem m2sH7_sp (g : Nat → Nat) (ms0 ms1 ms2 : Nat) (mem0 : Mem) :
    readReg (m2sH7 (mkM g ms0 ms1 ms2) mem0) 2 = 2048 := by
  unfold m2sH7 ldx
  rw [readReg_writeReg_ne _ _ (by decide), m2sH6_sp]

theorem m2sH8_sp (g : Nat → Nat) (ms0 ms1 ms2 : Nat) (mem0 : Mem) :
    readReg (m2sH8 (mkM g ms0 ms1 ms2) mem0) 2 = 2048 := by
  unfold m2sH8
  rw [loadRange_out _ _ _ _ (by decide), m2sH7_sp]

/-- After m_to_s, registers x3..x31 hold context slots 3..31. -/
theorem m2s_regs (g : Nat → Nat) (ms0 ms1 ms2 : Nat) (mem0 : Mem) :
    ∀ n ∈ regs3to31,
      readReg (m2sLoadHw (mkM g ms0 ms1 ms2) mem0) n = mem0 (2048 + 8 * n) := by
  intro n hn
  obtain ⟨hn0, hn2, hn3, hn31⟩ :=
    (by decide : ∀ x ∈ regs3to31, x ≠ 0 ∧ x ≠ 2 ∧ 3 ≤ x ∧ x ≤ 31) n hn
  unfold m2sLoadHw
  rw [readReg_setScratch, readReg_writeReg_ne _ _ hn2]
  unfold m2sH8
  rw [loadRange_at _ _ _ _ hn (by decide) hn0 (by decide)]
  rw [m2sH7_sp, waddr_small (by omega)]
  exact m2sMem_out g ms0 ms1 ms2 mem0 _ (by omega) (by omega)

/-- After m_to_s, register x1 holds context slot 1. -/
theorem m2s_reg1 (g : Nat → Nat) (ms0 ms1 ms2 : Nat) (mem0 : Mem) :
    readReg (m2sLoadHw (mkM g ms0 ms1 ms2) mem0) 1 = mem0 (2048 + 8 * 1) := by
  unfold m2sLoadHw
  rw [readReg_setScratch, readReg_writeReg_ne _ _ (by decide)]
  unfold m2sH8
  rw [loadRange_out _ _ _ _ (by decide)]
  unfold m2sH7 ldx
  rw [readReg_writeReg_self _ _ (by decide)]
  rw [m2sH6_sp, waddr_small (by norm_num)]
  exact m2sMem_out g ms0 ms1 ms2 mem0 _ (by norm_num) (by norm_num)

/-- After m_to_s, the supervisor stack pointer (x2, through the mscratch
swap) holds context slot 2. -/
theorem m2s_reg2 (g : Nat → Nat) (ms0 ms1 ms2 : Nat) (mem0 : Mem) :
    readReg (m2sLoadHw (mkM g ms0 ms1 ms2) mem0) 2 = mem0 (2048 + 2 * 8) := by
  unfold m2sLoadHw
  rw [readReg_setScratch, readReg_writeReg_self _ _ (by decide)]
  unfold m2sH8
  rw [loadRange_mscratch]
  unfold m2sH7 ldx
  rw [writeReg_mscratch]
  unfold m2sH6
  simp only []
  unfold m2sH5
  rw [readReg_writeReg_ne _ _ (by decide)]
  unfold m2sH4
  rw [readReg_writeReg_ne _ _ (by decide)]
  unfold m2sH3
  rw [readReg_writeReg_self _ _ (by decide)]
  rw [m2sH2_sp, waddr_small (by norm_num)]
  exact m2sMem_out g ms0 ms1 ms2 mem0 _ (by norm_num) (by norm_num)

/-- After m_to_s, mscratch holds the context address. -/
theorem m2s_mscratch (g : Nat → Nat) (ms0 ms1 ms2 : Nat) (mem0 : Mem) :
    (m2sLoadHw (mkM g ms0 ms1 ms2) mem0).mscratch = 2048 := by
  unfold m2sLoadHw
  simp only []
  exact m2sH8_sp g ms0 ms1 ms2 mem0

/-- After m_to_s, the status register holds context slot 32. -/
theorem m2s_mstatus (g : Nat → Nat) (ms0 ms1 ms2 : Nat) (mem0 : Mem) :
    (m2sLoadHw (mkM g ms0 ms1 ms2) mem0).mstatus = mem0 (2048 + 32 * 8) := by
  unfold m2sLoadHw
  simp only []
  rw [writeReg_mstatus]
  unfold m2sH8
  rw [loadRange_mstatus]
  unfold m2sH7 ldx
  rw [writeReg_mstatus]
  unfold m2sH6
  simp only []
  unfold m2sH5
  rw [readReg_writeReg_ne _ _ (by decide)]
  unfold m2sH4
  rw [readReg_writeReg_self _ _ (by decide)]
  rw [m2sH3_sp, waddr_small (by norm_num)]
  exact m2sMem_out g ms0 ms1 ms2 mem0 _ (by norm_num) (by norm_num)

/-- After m_to_s, the exception address register holds context slot 33. -/
theorem m2s_mepc (g : Nat → Nat) (ms0 ms1 ms2 : Nat) (mem0 : Mem) :
    (m2sLoadHw (mkM g ms0 ms1 ms2) mem0).mepc = mem0 (2048 + 33 * 8) := by
  unfold m2sLoadHw
  simp only []
  rw [writeReg_mepc]
  unfold m2sH8
  rw [loadRange_mepc]
  unfold m2sH7 ldx
  rw [writeReg_mepc]
  unfold m2sH6
  simp only []
  unfold m2sH5
  rw [readReg_writeReg_self _ _ (by decide)]
  rw [m2sH4_sp, waddr_small (by norm_num)]
  exact m2sMem_out g ms0 ms1 ms2 mem0 _ (by norm_num) (by norm_num)

/-! Evaluation of the reverse switch s_to_m at context address 2048. -/

theorem s2mSwap_sp (h0 : Hw) (hm : h0.mscratch = 2048) :
    readReg (s2mSwap h0) 2 = 2048 := by
  unfold s2mSwap
  rw [readReg_setScratch, readReg_writeReg_self _ _ (by decide), hm]

theorem s2mSwap_reg (h0 : Hw) {n : Nat} (hn2 : n ≠ 2) :
    readReg (s2mSwap h0) n = readReg h0 n := by
  unfold s2mSwap
  rw [readReg_setScratch, readReg_writeReg_ne _ _ hn2]

theorem s2mH4_sp (h0 : Hw) (hm : h0.mscratch = 2048) :
    readReg (s2mH4 h0) 2 = 2048 := by
  unfold s2mH4 s2mH3 s2mH2
  rw [readReg_writeReg_ne _ _ (by decide), readReg_writeReg_ne _ _ (by decide),
    readReg_writeReg_ne _ _ (by decide)]
  exact s2mSwap_sp h0 hm

/-- t0 has the trapped supervisor stack pointer. -/
theorem s2mH4_t0 (h0 : Hw) : readReg (s2mH4 h0) 5 = readReg h0 2 := by
  unfold s2mH4
  rw [readReg_writeReg_ne _ _ (by decide)]
  unfold s2mH3
  rw [readReg_writeReg_ne _ _ (by decide)]
  unfold s2mH2
  rw [readReg_writeReg_self _ _ (by decide)]
  unfold s2mSwap
  simp only []

/-- t1 has the trapped status word. -/
theorem s2mH4_t1 (h0 : Hw) : readReg (s2mH4 h0) 6 = h0.mstatus := by
  unfold s2mH4
  rw [readReg_writeReg_ne _ _ (by decide)]
  unfold s2mH3
  rw [readReg_writeReg_self _ _ (by decide)]
  unfold s2mH2
  rw [writeReg_mstatus]
  unfold s2mSwap
  simp only []
  rw [writeReg_mstatus]

/-- t2 has the trapped exception address. -/
theorem s2mH4_t2 (h0 : Hw) : readReg (s2mH4 h0) 7 = h0.mepc := by
  unfold s2mH4
  rw [readReg_writeReg_self _ _ (by decide)]
  unfold s2mH3
  rw [writeReg_mepc]
  unfold s2mH2
  rw [writeReg_mepc]
  unfold s2mSwap
  simp only []
  rw [writeReg_mepc]

/-- Distinct slot indices give distinct slot addresses. -/
theorem slot_addr_inj (j k : Nat) (hj : j ≤ 33) (hk : k ≤ 33)
    (hEq : waddr 2048 (8 * j) = waddr 2048 (8 * k)) : j = k := by
  rw [waddr_small (by omega), waddr_small (by omega)] at hEq
  omega

/-- s_to_m stores registers x3..x31 into context slots 3..31. -/
theorem s2mMem_slots (h0 : Hw) (mem0 : Mem) (hm : h0.mscratch = 2048) :
    ∀ n ∈ regs3to31, s2mMem h0 mem0 (2048 + 8 * n) = readReg h0 n := by
  intro n hn
  obtain ⟨hn0, hn2, hn3, hn31⟩ :=
    (by decide : ∀ x ∈ regs3to31, x ≠ 0 ∧ x ≠ 2 ∧ 3 ≤ x ∧ x ≤ 31) n hn
  unfold s2mMem
  rw [s2mH4_sp h0 hm]
  rw [st_read_ne _ _ (by rw [waddr_small (by norm_num)]; omega)]
  rw [st_read_ne _ _ (by rw [waddr_small (by norm_num)]; omega)]
  rw [st_read_ne _ _ (by rw [waddr_small (by norm_num)]; omega)]
  have hsp := s2mSwap_sp h0 hm
  have hinj : ∀ j ∈ regs3to31,
      waddr (readReg (s2mSwap h0) 2) (8 * j)
        = waddr (readReg (s2mSwap h0) 2) (8 * n) → j = n := by
    intro j hj hEq
    have hj33 := (by decide : ∀ x ∈ regs3to31, x ≤ 33) j hj
    rw [hsp] at hEq
    exact slot_addr_inj j n (by omega) (by omega) hEq
  rw [show (2048 + 8 * n : Nat) = waddr (readReg (s2mSwap h0) 2) (8 * n) from by
    rw [hsp, waddr_small (by omega)]]
  rw [saveRange_at _ _ _ _ hn hinj]
  exact s2mSwap_reg h0 hn2

/-- s_to_m stores register x1 into context slot 1. -/
theorem s2mMem_slot1 (h0 : Hw) (mem0 : Mem) (hm : h0.mscratch = 2048) :
    s2mMem h0 mem0 (2048 + 8 * 1) = readReg h0 1 := by
  unfold s2mMem
  rw [s2mH4_sp h0 hm]
  rw [st_read_ne _ _ (by rw [waddr_small (by norm_num)]; norm_num)]
  rw [st_read_ne _ _ (by rw [waddr_small (by norm_num)]; norm_num)]
  rw [st_read_ne _ _ (by rw [waddr_small (by norm_num)]; norm_num)]
  have hsp := s2mSwap_sp h0 hm
  rw [saveRange_out _ _ _ _ ?hout]
  case hout =>
    intro j hj
    have hj3 := (by decide : ∀ x ∈ regs3to31, 3 ≤ x ∧ x ≤ 33) j hj
    rw [hsp, waddr_small (by omega)]
    omega
  unfold sdx
  rw [hsp, waddr_small (by norm_num)]
  rw [show (2048 + 8 * 1 : Nat) = 2048 + 8 from by norm_num] at *
  rw [st_read_same]
  exact s2mSwap_reg h0 (by decide)

/-- s_to_m stores the trapped supervisor stack pointer (through mscratch)
into context slot 2. -/
theorem s2mMem_slot2 (h0 : Hw) (mem0 : Mem) (hm : h0.mscratch = 2048) :
    s2mMem h0 mem0 (2048 + 2 * 8) = readReg h0 2 := by
  unfold s2mMem
  rw [s2mH4_sp h0 hm]
  rw [st_read_ne _ _ (by rw [waddr_small (by norm_num)]; norm_num)]
  rw [st_read_ne _ _ (by rw [waddr_small (by norm_num)]; norm_num)]
  rw [show waddr 2048 (2 * 8) = 2048 + 2 * 8 from by rw [waddr_small (by norm_num)]]
  rw [st_read_same]
  exact s2mH4_t0 h0

/-- s_to_m stores the trapped status word into context slot 32. -/
theorem s2mMem_slot32 (h0 : Hw) (mem0 : Mem) (hm : h0.mscratch = 2048) :
    s2mMem h0 mem0 (2048 + 32 * 8) = h0.mstatus := by
  unfold s2mMem
  rw [s2mH4_sp h0 hm]
  rw [st_read_ne _ _ (by rw [waddr_small (by norm_num)]; norm_num)]
  rw [show waddr 2048 (32 * 8) = 2048 + 32 * 8 from by rw [waddr_small (by norm_num)]]
  rw [st_read_same]
  exact s2mH4_t1 h0

/-- s_to_m stores the trapped exception address into context slot 33. -/
theorem s2mMem_slot33 (h0 : Hw) (mem0 : Mem) (hm : h0.mscratch = 2048) :
    s2mMem h0 mem0 (2048 + 33 * 8) = h0.mepc := by
  unfold s2mMem
  rw [s2mH4_sp h0 hm]
  rw [show waddr 2048 (33 * 8) = 2048 + 33 * 8 from by rw [waddr_small (by norm_num)]]
  rw [st_read_same]
  exact s2mH4_t2 h0

/-- s_to_m leaves context slot 0 (the machine stack pointer it reloads)
untouched. -/
theorem s2mMem_slot0 (h0 : Hw) (mem0 : Mem) (hm : h0.mscratch = 2048) :
    s2mMem h0 mem0 2048 = mem0 2048 := by
  unfold s2mMem
  rw [s2mH4_sp h0 hm]
  rw [st_read_ne _ _ (by rw [waddr_small (by norm_num)]; norm_num)]
  rw [st_read_ne _ _ (by rw [waddr_small (by norm_num)]; norm_num)]
  rw [st_read_ne _ _ (by rw [waddr_small (by norm_num)]; norm_num)]
  have hsp := s2mSwap_sp h0 hm
  rw [saveRange_out _ _ _ _ ?hout]
  case hout =>
    intro j hj
    have hj3 := (by decide : ∀ x ∈ regs3to31, 3 ≤ x ∧ x ≤ 33) j hj
    rw [hsp, waddr_small (by omega)]
    omega
  unfold sdx
  rw [hsp, waddr_small (by norm_num)]
  rw [st_read_ne _ _ (by norm_num)]

/-- C3: for any register bank state written into the context before the
forward switch (any values in context slots, here at context address 2048
with machine stack pointer 1024), the state captured back into the
context by the reverse switch after a trap — the trap having changed only
the hardware mstatus and mepc, supervisor code having executed no
register-modifying instruction — is bit-identical to the original values
for every general register other than the zero register and the
stack-pointer register (which follows the scratch-indirection path). -/
theorem C3_register_round_trip (g : Nat → Nat) (ms0 ms1 ms2 s e : Nat)
    (mem0 : Mem) :
    ∀ n ∈ gprNoSp,
      (s_to_m
        { (m_to_s (mkM g ms0 ms1 ms2) mem0).1 with mstatus := s, mepc := e }
        (m_to_s (mkM g ms0 ms1 ms2) mem0).2).2 (2048 + 8 * n)
      = mem0 (2048 + 8 * n) := by
  intro n hn
  simp only [s_to_m, m_to_s]
  have hm : ({ m2sLoadHw (mkM g ms0 ms1 ms2) mem0 with
      mstatus := s, mepc := e } : Hw).mscratch = 2048 := by
    simp only []
    exact m2s_mscratch g ms0 ms1 ms2 mem0
  rcases (by decide : ∀ x ∈ gprNoSp, x = 1 ∨ x ∈ regs3to31) n hn with h1 | h3
  · subst h1
    rw [s2mMem_slot1 _ _ hm, readReg_setStatusEpc]
    exact m2s_reg1 g ms0 ms1 ms2 mem0
  · rw [s2mMem_slots _ _ hm n h3, readReg_setStatusEpc]
    exact m2s_regs g ms0 ms1 ms2 mem0 n h3

/-- Witness for C3 at a concrete input: register slot 7, with identity
memory, zeroed machine bank and a trap that set mstatus to 888 and mepc
to 777, reads back its original value. -/
theorem C3_register_round_trip_witness :
    7 ∈ gprNoSp ∧
      (s_to_m
        { (m_to_s (mkM (fun k => k) 0 0 0) (fun a => a)).1 with
          mstatus := 888, mepc := 777 }
        (m_to_s (mkM (fun k => k) 0 0 0) (fun a => a)).2).2 (2048 + 8 * 7)
      = (fun (a : Nat) => a) (2048 + 8 * 7) :=
  ⟨by decide,
   C3_register_round_trip (fun k => k) 0 0 0 888 777 (fun a => a) 7 (by decide)⟩

/-- C9: the context record layout is identical between the forward
switch's loads and the reverse switch's stores: slot 0 carries the saved
machine stack pointer (written going in, left for the reload coming
back), slots 1..31 carry the general registers in architectural order
(the stack pointer slot 2 through the scratch indirection), slot 32 the
status word and slot 33 the exception address. -/
theorem C9_context_record_layout (g : Nat → Nat) (ms0 ms1 ms2 : Nat)
    (mem0 : Mem) (h : Hw) (m : Mem) (hm : h.mscratch = 2048) :
    ((m_to_s (mkM g ms0 ms1 ms2) mem0).2 2048 = 1024 - 32 * 8) ∧
    (∀ n ∈ gprNoSp,
      readReg (m_to_s (mkM g ms0 ms1 ms2) mem0).1 n = mem0 (2048 + 8 * n)) ∧
    (readReg (m_to_s (mkM g ms0 ms1 ms2) mem0).1 2 = mem0 (2048 + 2 * 8)) ∧
    ((m_to_s (mkM g ms0 ms1 ms2) mem0).1.mstatus = mem0 (2048 + 32 * 8)) ∧
    ((m_to_s (mkM g ms0 ms1 ms2) mem0).1.mepc = mem0 (2048 + 33 * 8)) ∧
    (∀ n ∈ gprNoSp, (s_to_m h m).2 (2048 + 8 * n) = readReg h n) ∧
    ((s_to_m h m).2 (2048 + 2 * 8) = readReg h 2) ∧
    ((s_to_m h m).2 (2048 + 32 * 8) = h.mstatus) ∧
    ((s_to_m h m).2 (2048 + 33 * 8) = h.mepc) ∧
    ((s_to_m h m).2 2048 = m 2048) := by
  simp only [s_to_m, m_to_s]
  refine ⟨by rw [m2sMem_slot0], ?_, m2s_reg2 g ms0 ms1 ms2 mem0,
    m2s_mstatus g ms0 ms1 ms2 mem0, m2s_mepc g ms0 ms1 ms2 mem0, ?_,
    s2mMem_slot2 h m hm, s2mMem_slot32 h m hm, s2mMem_slot33 h m hm,
    s2mMem_slot0 h m hm⟩
  · intro n hn
    rcases (by decide : ∀ x ∈ gprNoSp, x = 1 ∨ x ∈ regs3to31) n hn with h1 | h3
    · subst h1
      exact m2s_reg1 g ms0 ms1 ms2 mem0
    · exact m2s_regs g ms0 ms1 ms2 mem0 n h3
  · intro n hn
    rcases (by decide : ∀ x ∈ gprNoSp, x = 1 ∨ x ∈ regs3to31) n hn with h1 | h3
    · subst h1
      exact s2mMem_slot1 h m hm
    · exact s2mMem_slots h m hm n h3

/-- Witness for C9 at a concrete input: slot 0 holds the decremented
machine stack pointer going in, and slot 33 captures the trapped
exception address coming back. -/
theorem C9_context_record_layout_witness :
    ((⟨fun k => 4000 + k, 2048, 321, 654⟩ : Hw).mscratch = 2048) ∧
    ((m_to_s (mkM (fun k => k) 0 0 0) (fun a => a)).2 2048 = 1024 - 32 * 8) ∧
    ((s_to_m ⟨fun k => 4000 + k, 2048, 321, 654⟩ (fun a => a)).2 (2048 + 33 * 8)
      = 654) :=
  ⟨rfl,
   (C9_context_record_layout (fun k => k) 0 0 0 (fun a => a)
     ⟨fun k => 4000 + k, 2048, 321, 654⟩ (fun a => a) rfl).1,
   (C9_context_record_layout (fun k => k) 0 0 0 (fun a => a)
     ⟨fun k => 4000 + k, 2048, 321, 654⟩ (fun a => a) rfl).2.2.2.2.2.2.2.2.1⟩

end RustsbiD1
